import Mathlib

/-!
Verification of the client-side task store of `task-list-front-end`
(`src/App.js`).  The store holds an in-memory list of tasks and exposes
four operations (`refreshTasks`, `updateTask`, `deleteTask`, `addTask`),
each of which issues one remote HTTP request and, on success, applies a
pure transformation to the local collection; on a transport fault it logs
and leaves the collection unchanged.

The embedding is shallow: each asynchronous helper is a pure function of
the transport outcome of its single remote call, modelled as
`Except Unit payload` (`Except.error ()` is a transport/server fault,
`Except.ok payload` a successful response carrying the response data).
Each store operation returns the new local collection together with the
list of requests it issued, so that the claims about request bodies,
endpoint selection and "no request issued" are statable.
-/

namespace TaskListFrontEnd

/-- Internal (camelCase) task record, the shape produced by
`taskApiToJson` in `src/App.js`: `{ description, id, isComplete, title }`. -/
structure Task where
  description : String
  id : Nat
  isComplete : Bool
  title : String
deriving DecidableEq

/-- Wire (snake_case) task record as received from the remote API:
`{ description, id, is_complete, title }`. -/
structure WireTask where
  description : String
  id : Nat
  is_complete : Bool
  title : String
deriving DecidableEq

/-- `taskApiToJson` (src/App.js lines 11-18): unpacks the fields of a wire
task, renaming `is_complete` to `isComplete`, and reassembles them. -/
def taskApiToJson (task : WireTask) : Task :=
  { description := task.description, id := task.id,
    isComplete := task.is_complete, title := task.title }

/-- Modelled from the spec: the reverse direction of the renaming
transform (internal camelCase back to the wire snake_case shape).  The
repository source contains only the incoming direction (`taskApiToJson`);
section 3 of the spec describes the renaming as a single bidirectional
field-renaming transform, so the outgoing direction renames `isComplete`
back to `is_complete` and keeps `description`, `id`, `title` unchanged. -/
def taskJsonToApi (task : Task) : WireTask :=
  { description := task.description, id := task.id,
    is_complete := task.isComplete, title := task.title }

/-- Body of the create request built in `addTaskAsync`
(src/App.js lines 82-92): `{ title, description, completed_at }`.
`completed_at` is `new Date()` (modelled as the current time `now : Nat`)
when the draft is complete, and `null` (`none`) otherwise. -/
structure CreateBody where
  title : String
  description : String
  completed_at : Option Nat
deriving DecidableEq

/-- A request issued to the remote API, recording the data the claims are
about: the HTTP operation, the addressed task id, the endpoint segment of
the PATCH path, and the POST body. -/
inductive Request where
  | getTasks : Request
  | patch (id : Nat) (endpoint : String) : Request
  | deleteReq (id : Nat) : Request
  | post (body : CreateBody) : Request
deriving DecidableEq

/-- `getTasksAsync` (src/App.js lines 24-39): GET `/tasks`; on success
maps `taskApiToJson` over each record of the response; on a transport
fault logs and throws the simplified error string. -/
def getTasksAsync (remote : Except Unit (List WireTask)) :
    Request × Except String (List Task) :=
  (Request.getTasks,
   match remote with
   | .ok data => .ok (data.map taskApiToJson)
   | .error _ => .error "error fetching tasks")

/-- `updateTaskAsync` (src/App.js lines 47-63): picks the endpoint from
`markComplete` (`mark_complete` when true, `mark_incomplete` when false),
PATCHes `/tasks/{id}/{endpoint}`, and on success returns the renamed
`response.data.task`; on a transport fault throws the simplified error. -/
def updateTaskAsync (id : Nat) (markComplete : Bool)
    (remote : Except Unit WireTask) : Request × Except String Task :=
  let endpoint := if markComplete then "mark_complete" else "mark_incomplete"
  (Request.patch id endpoint,
   match remote with
   | .ok w => .ok (taskApiToJson w)
   | .error _ => .error ("error updating task " ++ toString id))

/-- `deleteTaskAsync` (src/App.js lines 68-77): DELETEs `/tasks/{id}`,
returning nothing on success; on a transport fault throws the simplified
error. -/
def deleteTaskAsync (id : Nat) (remote : Except Unit Unit) :
    Request × Except String Unit :=
  (Request.deleteReq id,
   match remote with
   | .ok _ => .ok ()
   | .error _ => .error ("error deleting task " ++ toString id))

/-- The draft supplied to `addTask` by the new-task form: `title` and
`isComplete` (the only fields `addTaskAsync` extracts from `taskData`). -/
structure TaskData where
  title : String
  isComplete : Bool
deriving DecidableEq

/-- `addTaskAsync` (src/App.js lines 82-107): synthesizes
`description = "created in Task List Front End"` and
`completedAt = isComplete ? new Date() : null`, POSTs the body to
`/tasks`, and on success returns the renamed `response.data.task`. -/
def addTaskAsync (taskData : TaskData) (now : Nat)
    (remote : Except Unit WireTask) : Request × Except String Task :=
  let description := "created in Task List Front End"
  let completedAt := if taskData.isComplete then some now else none
  let body : CreateBody :=
    { title := taskData.title, description := description,
      completed_at := completedAt }
  (Request.post body,
   match remote with
   | .ok w => .ok (taskApiToJson w)
   | .error _ => .error "error creating task")

/-- `refreshTasks` (src/App.js lines 120-127): fetches the full remote
collection through `getTasksAsync` and replaces the whole local
collection with the result; a fault is caught (only logged) and the
collection kept. -/
def refreshTasks (tasks : List Task)
    (remote : Except Unit (List WireTask)) : List Task × List Request :=
  let (req, res) := getTasksAsync remote
  match res with
  | .ok newTasks => (newTasks, [req])
  | .error _ => (tasks, [req])

/-- `updateTask` (src/App.js lines 134-163): finds the task with the
given id (returning with no request when absent), asks
`updateTaskAsync` for the opposite of its observed `isComplete`, and on
success replaces every task whose id equals the id of the returned
record; a fault is caught (only logged) and the collection kept. -/
def updateTask (tasks : List Task) (id : Nat)
    (remote : Except Unit WireTask) : List Task × List Request :=
  match tasks.find? (fun task => task.id == id) with
  | none => (tasks, [])
  | some task =>
    let (req, res) := updateTaskAsync id (!task.isComplete) remote
    match res with
    | .ok newTask =>
        (tasks.map (fun t => if t.id == newTask.id then newTask else t),
         [req])
    | .error _ => (tasks, [req])

/-- `deleteTask` (src/App.js lines 170-183): deletes remotely through
`deleteTaskAsync` and on success filters out every local task with the
given id; a fault is caught (only logged) and the collection kept. -/
def deleteTask (tasks : List Task) (id : Nat)
    (remote : Except Unit Unit) : List Task × List Request :=
  let (req, res) := deleteTaskAsync id remote
  match res with
  | .ok _ => (tasks.filter (fun task => task.id != id), [req])
  | .error _ => (tasks, [req])

/-- `addTask` (src/App.js lines 189-200): creates remotely through
`addTaskAsync` and on success appends the returned task to the end of
the local collection; a fault is caught (only logged) and the collection
kept. -/
def addTask (tasks : List Task) (taskData : TaskData) (now : Nat)
    (remote : Except Unit WireTask) : List Task × List Request :=
  let (req, res) := addTaskAsync taskData now remote
  match res with
  | .ok task => (tasks ++ [task], [req])
  | .error _ => (tasks, [req])

/-- C1: for every prior local collection, a successful `refresh()`
replaces the entire local collection with the remote sequence with every
record passed through the renaming transform — a full overwrite, not a
merge, so the result is independent of the prior local state. -/
theorem refresh_success_overwrites (tasks : List Task)
    (ws : List WireTask) :
    (refreshTasks tasks (Except.ok ws)).1 = ws.map taskApiToJson := rfl

/-- C2: on a transport/server fault, each of the four store operations
leaves the local collection exactly as it was before the call.  The
operations are total functions of the outcome (the catch block of the
source is embedded as the `Except.error` branch), so no fault escapes to
the caller. -/
theorem fault_leaves_state_unchanged (tasks : List Task) (id : Nat)
    (d : TaskData) (now : Nat) :
    (refreshTasks tasks (Except.error ())).1 = tasks ∧
    (updateTask tasks id (Except.error ())).1 = tasks ∧
    (deleteTask tasks id (Except.error ())).1 = tasks ∧
    (addTask tasks d now (Except.error ())).1 = tasks := by
  refine ⟨rfl, ?_, rfl, rfl⟩
  unfold updateTask
  cases tasks.find? (fun task => task.id == id) <;> rfl

/-- C7: a successful `add(draft)` yields the prior collection with
exactly one new task appended at the end, namely the renamed record the
remote call returned; in particular its id is the server-assigned one. -/
theorem add_success_appends (tasks : List Task) (d : TaskData)
    (now : Nat) (w : WireTask) :
    (addTask tasks d now (Except.ok w)).1 = tasks ++ [taskApiToJson w] ∧
    (taskApiToJson w).id = w.id := ⟨rfl, rfl⟩

/-- C8: whatever the outcome, the create request body sent by `add`
consists of the title of the draft, the fixed synthesized description
`"created in Task List Front End"`, and a `completed_at` field equal to
the current time when the draft is complete and absent otherwise. -/
theorem add_request_body (tasks : List Task) (d : TaskData) (now : Nat)
    (remote : Except Unit WireTask) :
    (addTask tasks d now remote).2
      = [Request.post
          { title := d.title,
            description := "created in Task List Front End",
            completed_at := if d.isComplete then some now else none }] := by
  cases remote <;> rfl

/-- C10: the renaming transform applied to a wire record and back is the
identity (and symmetrically from the internal side), and it preserves
`id`, `title`, `description` unchanged while the wire `is_complete` and
the internal `isComplete` fields carry the same boolean. -/
theorem rename_round_trip (w : WireTask) (t : Task) :
    taskJsonToApi (taskApiToJson w) = w ∧
    taskApiToJson (taskJsonToApi t) = t ∧
    (taskApiToJson w).id = w.id ∧
    (taskApiToJson w).title = w.title ∧
    (taskApiToJson w).description = w.description ∧
    (taskApiToJson w).isComplete = w.is_complete :=
  ⟨rfl, rfl, rfl, rfl, rfl, rfl⟩

/-- C3: a successful `toggleComplete(id)` on a collection containing a
task with that id, where the remote returns the record for that id with
the flipped flag, replaces in place exactly the tasks with that id by the
renamed returned record (whose `isComplete` is the flip of the observed
value) and leaves every other position equal to its previous element; the
map formulation adds and removes nothing. -/
theorem toggle_success_flips_and_frames (tasks : List Task) (id : Nat)
    (task : Task) (w : WireTask)
    (hfind : tasks.find? (fun t => t.id == id) = some task)
    (hid : w.id = id) (hflip : w.is_complete = !task.isComplete) :
    (updateTask tasks id (Except.ok w)).1
      = tasks.map (fun t => if t.id = id then taskApiToJson w else t) ∧
    (taskApiToJson w).id = id ∧
    (taskApiToJson w).isComplete = !task.isComplete := by
  refine ⟨?_, by simpa [taskApiToJson] using hid,
    by simpa [taskApiToJson] using hflip⟩
  simp [updateTask, hfind, updateTaskAsync, taskApiToJson, hid]

/-- C3 witness at a concrete input. -/
theorem toggle_success_flips_and_frames_witness :
    (updateTask [⟨"", 1, false, "A"⟩, ⟨"", 2, true, "B"⟩] 1
        (Except.ok ⟨"x", 1, true, "A"⟩)).1
      = [⟨"x", 1, true, "A"⟩, ⟨"", 2, true, "B"⟩] ∧
    (taskApiToJson ⟨"x", 1, true, "A"⟩).isComplete = true := by
  have h := toggle_success_flips_and_frames
    [⟨"", 1, false, "A"⟩, ⟨"", 2, true, "B"⟩] 1 ⟨"", 1, false, "A"⟩
    ⟨"x", 1, true, "A"⟩ (by decide) rfl (by decide)
  refine ⟨?_, by simpa using h.2.2⟩
  rw [h.1]
  decide

/-- C4: `toggleComplete(id)` with an id not present in the collection is
a no-op: the collection is unchanged and no request is issued, whatever
the transport would have answered. -/
theorem toggle_absent_noop (tasks : List Task) (id : Nat)
    (remote : Except Unit WireTask)
    (habs : ∀ t ∈ tasks, t.id ≠ id) :
    updateTask tasks id remote = (tasks, []) := by
  have h : tasks.find? (fun task => task.id == id) = none := by
    rw [List.find?_eq_none]
    intro t ht
    simpa using habs t ht
  simp [updateTask, h]

/-- C4 witness at a concrete input. -/
theorem toggle_absent_noop_witness :
    updateTask [⟨"", 1, false, "A"⟩] 2 (Except.ok ⟨"", 2, true, "B"⟩)
      = ([⟨"", 1, false, "A"⟩], []) :=
  toggle_absent_noop _ 2 _ (by decide)

/-- C5: `toggleComplete(id)` on a present task issues exactly one PATCH
request for that id, whose endpoint is selected by the opposite of the
`isComplete` value observed at call time: `mark_complete` when the
target (the negation of the observed value) is true, `mark_incomplete`
when it is false — regardless of the transport outcome. -/
theorem toggle_requests_opposite (tasks : List Task) (id : Nat)
    (task : Task) (remote : Except Unit WireTask)
    (hfind : tasks.find? (fun t => t.id == id) = some task) :
    (updateTask tasks id remote).2
      = [Request.patch id
          (if !task.isComplete then "mark_complete"
           else "mark_incomplete")] := by
  cases remote <;> simp [updateTask, hfind, updateTaskAsync]

/-- C5 witness at a concrete input. -/
theorem toggle_requests_opposite_witness :
    (updateTask [⟨"", 1, false, "A"⟩] 1 (Except.error ())).2
      = [Request.patch 1 "mark_complete"] := by
  have h := toggle_requests_opposite [⟨"", 1, false, "A"⟩] 1
    ⟨"", 1, false, "A"⟩ (Except.error ()) (by decide)
  simpa using h

/-- C6: a successful `remove(id)` keeps exactly the tasks whose id
differs from the given id: the result contains no task with that id,
every other task survives, and removing an absent id yields the
collection unchanged rather than a fault (idempotence). -/
theorem remove_success (tasks : List Task) (id : Nat) :
    ((deleteTask tasks id (Except.ok ())).1
        = tasks.filter (fun t => t.id != id)) ∧
    (∀ t ∈ (deleteTask tasks id (Except.ok ())).1, t.id ≠ id) ∧
    (∀ t ∈ tasks, t.id ≠ id → t ∈ (deleteTask tasks id (Except.ok ())).1) ∧
    ((∀ t ∈ tasks, t.id ≠ id) →
      (deleteTask tasks id (Except.ok ())).1 = tasks) := by
  have hfil : (deleteTask tasks id (Except.ok ())).1
      = tasks.filter (fun t => t.id != id) := rfl
  refine ⟨hfil, ?_, ?_, ?_⟩
  · intro t ht
    rw [hfil, List.mem_filter] at ht
    simpa using ht.2
  · intro t ht hne
    rw [hfil, List.mem_filter]
    exact ⟨ht, by simpa using hne⟩
  · intro habs
    rw [hfil, List.filter_eq_self]
    intro t ht
    simpa using habs t ht

/-- C6 witness at concrete inputs: removing a present id drops exactly
that task, and removing an absent id leaves the collection unchanged. -/
theorem remove_success_witness :
    ((deleteTask [⟨"", 5, false, "E"⟩, ⟨"", 6, true, "F"⟩] 5
        (Except.ok ())).1 = [⟨"", 6, true, "F"⟩]) ∧
    ((deleteTask [⟨"", 6, true, "F"⟩] 5 (Except.ok ())).1
        = [⟨"", 6, true, "F"⟩]) := by
  have h1 := remove_success [⟨"", 5, false, "E"⟩, ⟨"", 6, true, "F"⟩] 5
  have h2 := remove_success [⟨"", 6, true, "F"⟩] 5
  exact ⟨by rw [h1.1]; decide, h2.2.2.2 (by decide)⟩

/-- C9: every store operation preserves the relative order of the tasks
that remain: a successful `add` appends at the end of the prior
collection, a successful `toggleComplete` preserves the sequence of ids
(in-place replacement, no reordering), and a successful `remove` yields
a sublist of the prior collection (survivors keep their order). -/
theorem operations_preserve_order (tasks : List Task) (id : Nat)
    (w ww : WireTask) (d : TaskData) (now : Nat) :
    ((addTask tasks d now (Except.ok ww)).1
        = tasks ++ [taskApiToJson ww]) ∧
    ((updateTask tasks id (Except.ok w)).1.map Task.id
        = tasks.map Task.id) ∧
    ((deleteTask tasks id (Except.ok ())).1.Sublist tasks) := by
  refine ⟨rfl, ?_, List.filter_sublist _⟩
  unfold updateTask
  cases hf : tasks.find? (fun task => task.id == id) with
  | none => rfl
  | some task =>
      simp only [updateTaskAsync, List.map_map]
      apply List.map_congr_left
      intro a _
      by_cases h : a.id = (taskApiToJson w).id <;> simp [Function.comp, h]

end TaskListFrontEnd
